import Mathlib

/-!
Shallow embedding of the AirBnB_clone persistence engine and console
(`src/models/base_model.py`, `src/models/engine/file_storage.py`,
`src/console.py`).

Modelling conventions, fixed once for the whole development:

* Python runtime values flowing through the entity layer are modelled by
  `PyVal`: strings, `datetime` objects (a `datetime` instant is modelled as a
  `Nat` tick), and `None`.  Integers read from a literal are represented by
  the string of their digits, which is observationally equivalent here
  because every use site passes them through `str()` interpolation.
* `datetime.isoformat` / `datetime.fromisoformat` are modelled by an
  injective rendering `isoOf` with computable partial inverse
  `fromisoformat`; `str(datetime)` (`dtStr`) is a distinct rendering, kept
  different from `isoOf` as in Python (`'T'` separator versus space).
* A Python object's `__dict__` is an insertion-ordered association list
  (`alistSet` mirrors `d[k] = v`: update in place, else append).
* `print` output is accumulated as a list of printed lines.
-/

/-- Python runtime values used by the program. -/
inductive PyVal where
  | vStr : String → PyVal
  | vDT : Nat → PyVal
  | vNone : PyVal
deriving DecidableEq, Repr

open PyVal

/-- Rendering of a `datetime` by `datetime.isoformat()`.  The instant `n` is
rendered as `"ISO:"` followed by `n` marks, an injective encoding with a
computable inverse. -/
def isoOf (n : Nat) : String :=
  "ISO:" ++ String.mk (List.replicate n 'x')

/-- `datetime.fromisoformat`: parses exactly the strings produced by `isoOf`;
any other string raises `ValueError`, modelled as `none`. -/
def fromisoformat (s : String) : Option Nat :=
  match s.data with
  | 'I' :: 'S' :: 'O' :: ':' :: rest =>
      if rest.all (· = 'x') then some rest.length else none
  | _ => none

/-- `str(datetime)`: human form, deliberately distinct from `isoOf`
(in Python `str(dt)` uses a space separator, `isoformat()` a `'T'`). -/
def dtStr (n : Nat) : String := "DT:" ++ toString n

/-- Python `str()` on a `PyVal`. -/
def pyStr : PyVal → String
  | vStr s => s
  | vDT n => dtStr n
  | vNone => "None"

/-- `handle_timestamp_update` (src/models/base_model.py lines 12-40): a
`datetime` value passes through; any other value is `str()`-ed and parsed
with `fromisoformat`, yielding `none` on `ValueError`. -/
def handle_timestamp_update : PyVal → Option Nat
  | vDT n => some n
  | v => fromisoformat (pyStr v)

/-- Ordered association-list update, mirroring Python `d[k] = v` on a `dict`
(and attribute assignment on `__dict__`): replace in place if the key is
present, else append. -/
def alistSet {α : Type} : List (String × α) → String → α → List (String × α)
  | [], k, v => [(k, v)]
  | (k', v') :: rest, k, v =>
      if k' = k then (k, v) :: rest else (k', v') :: alistSet rest k v

/-- Remove the entry of a key, mirroring `dict.pop(key)`. -/
def alistPop {α : Type} (l : List (String × α)) (k : String) :
    List (String × α) :=
  l.eraseP (fun p => p.1 = k)

/-- A Python object of the entity layer: its concrete class name and its
`__dict__`. -/
structure Entity where
  cls : String
  fields : List (String × PyVal)
deriving DecidableEq, Repr

/-- The fixed diagnostic printed on an invalid timestamp assignment. -/
def tsDiag : String := "Failed to update datetime. Invalid input."

/-- `BaseModel._set_timestamp` (lines 136-153): validate through
`handle_timestamp_update`; on success store the parsed `datetime`, on
failure print the diagnostic and leave the field unchanged.  (A `datetime`
is always truthy in Python, so `if updated_timestamp:` is exactly the
`Option` test.) -/
def Entity.set_timestamp (e : Entity) (key : String) (value : PyVal) :
    Entity × List String :=
  match handle_timestamp_update value with
  | some d => ({ e with fields := alistSet e.fields key (vDT d) }, [])
  | none => (e, [tsDiag])

/-- `BaseModel.__setattr__` (lines 111-134): timestamp names delegate to
`_set_timestamp`; `id` is coerced with `str()`; anything else is stored
verbatim. -/
def Entity.setAttr (e : Entity) (name : String) (value : PyVal) :
    Entity × List String :=
  if name = "created_at" ∨ name = "updated_at" then
    e.set_timestamp name value
  else if name = "id" then
    ({ e with fields := alistSet e.fields name (vStr (pyStr value)) }, [])
  else
    ({ e with fields := alistSet e.fields name value }, [])

/-- `BaseModel.__setitem__` (lines 90-109): `"__class__"` is silently
ignored; timestamp keys go through `_set_timestamp`; the rest through
`setattr`. -/
def Entity.setItem (e : Entity) (key : String) (value : PyVal) :
    Entity × List String :=
  if key = "__class__" then (e, [])
  else if key = "created_at" ∨ key = "updated_at" then
    e.set_timestamp key value
  else e.setAttr key value

/-- A serialized field map (one JSON object value of the backing file, or a
`**kwargs` dictionary). -/
abbrev FieldMap := List (String × PyVal)

/-- One iteration of the `for key, value in kwargs.items()` loop of
`BaseModel.__init__`: `self[key] = value`, accumulating printed output. -/
def initStep (acc : Entity × List String) (kv : String × PyVal) :
    Entity × List String :=
  let r := acc.1.setItem kv.1 kv.2
  (r.1, acc.2 ++ r.2)

/-- `BaseModel.__init__` on a non-empty `kwargs` map (lines 86-88): copy
every pair through `__setitem__`, collecting anything printed. -/
def initFromKwargs (cls : String) (kwargs : FieldMap) : Entity × List String :=
  kwargs.foldl initStep (⟨cls, []⟩, [])

/-- `str(uuid.uuid4())` for the `uid`-th fresh identifier drawn in a run. -/
def uuidStr (uid : Nat) : String := "uuid-" ++ toString uid

/-- The in-memory store `FileStorage.__objects`. -/
abbrev Store := List (String × Entity)

/-- `FileStorage.new` (lines 62-78): derive the key `<cls>.<id>` and
insert/overwrite.  The `hasattr` guard fails only for objects without an
`id` attribute. -/
def FileStorage.new (objects : Store) (obj : Entity) : Except String Store :=
  match obj.fields.lookup "id" with
  | some idv =>
      .ok (alistSet objects (obj.cls ++ "." ++ pyStr idv) obj)
  | none => .error "obj must have attributes named id, __class__"

/-- `BaseModel.__init__` with empty `kwargs` (lines 74-84): generate an id,
set both timestamps to `now` (each assignment routed through
`__setattr__`), and register with the store via `FileStorage.new`. -/
def initFresh (cls : String) (now uid : Nat) (objects : Store) :
    Entity × Store :=
  let e0 : Entity := ⟨cls, []⟩
  let e1 := (e0.setAttr "id" (vStr (uuidStr uid))).1
  let e2 := (e1.setAttr "created_at" (vDT now)).1
  let e3 := (e2.setAttr "updated_at" (vDT now)).1
  match FileStorage.new objects e3 with
  | .ok objects' => (e3, objects')
  | .error _ => (e3, objects)

/-- One entry of the `to_dict` comprehension: timestamp keys are rendered
through `isoformat` (an `AttributeError` on a non-`datetime` there is
modelled by `none`), other entries pass through. -/
def toDictEntry (p : String × PyVal) : Option (String × PyVal) :=
  if p.1 = "created_at" ∨ p.1 = "updated_at" then
    match p.2 with
    | vDT d => some (p.1, vStr (isoOf d))
    | _ => none
  else some p

/-- `BaseModel.to_dict` (lines 165-202): every `__dict__` entry through
`toDictEntry`, then `__class__` set to the class name. -/
def Entity.to_dict (e : Entity) : Option FieldMap :=
  (e.fields.mapM toDictEntry).map
    (fun l => alistSet l "__class__" (vStr e.cls))

/-- Python `repr` of a string: single quotes preferred, double quotes when
the text contains a single quote but no double quote, single quotes with
the single quotes backslash-escaped when it contains both.  (Escapes of
backslashes and control characters, which none of the program's renderings
depends on, are outside the modelled subset.) -/
def strRepr (s : String) : String :=
  if s.data.contains '\'' then
    if s.data.contains '"' then
      "\x27" ++ String.mk (s.data.foldr
        (fun c acc => if c = '\'' then '\\' :: c :: acc else c :: acc) []) ++
        "\x27"
    else "\"" ++ s ++ "\""
  else "\x27" ++ s ++ "\x27"

/-- Python `repr` of a `PyVal`, for rendering `__dict__` in `__str__`. -/
def reprVal : PyVal → String
  | vStr s => strRepr s
  | vDT n => "datetime(" ++ toString n ++ ")"
  | vNone => "None"

/-- Python `repr` of a `__dict__`. -/
def dictRepr (fields : FieldMap) : String :=
  "\x7b" ++
    String.intercalate ", "
      (fields.map (fun p => strRepr p.1 ++ ": " ++ reprVal p.2)) ++
  "\x7d"

/-- `BaseModel.__str__` (lines 204-213): `"[cls] (id) {__dict__}"`.  (When
`id` is absent Python would raise `AttributeError`; that corner is
unreachable in the commands considered and rendered as an empty id.) -/
def entityStr (e : Entity) : String :=
  let idText := match e.fields.lookup "id" with
    | some v => pyStr v
    | none => ""
  "[" ++ e.cls ++ "] (" ++ idText ++ ") " ++ dictRepr e.fields

/-- The backing file `db.json`, as the parsed JSON object it holds. -/
abbrev StoreFile := List (String × FieldMap)

/-- `FileStorage.save` (lines 80-89): serialize every stored entity with
`to_dict` into one JSON object (an exception from `to_dict` propagates,
modelled by `none`). -/
def FileStorage.save (objects : Store) : Option StoreFile :=
  objects.mapM (fun p => (p.2.to_dict).map (fun d => (p.1, d)))

/-- `FileStorage.__classes` (lines 47-51): the class table the storage
engine resolves reload keys against.  It holds only `BaseModel`. -/
def fsClasses : List String := ["BaseModel"]

/-- `supported_classes` (src/models/__supported_class.py): the registry the
console validates class names against.  All seven entries construct like
`BaseModel` up to the class name. -/
def supported_classes : List String :=
  ["BaseModel", "User", "State", "City", "Amenity", "Place", "Review"]

/-- `key.split(".")[0]`: the key text before the first `'.'` (the whole key
when it has no dot). -/
def clsOf (k : String) : String := String.mk (k.data.takeWhile (· ≠ '.'))

/-- `FileStorage.__instantiate_from_dict` together with `BaseModel.__init__`
branching: an unknown class name raises `KeyError` (`.error`); an empty
field map takes the fresh-construction path of `__init__`, which also
registers the new entity in the live `__objects` map; a non-empty map takes
the reconstruction path, which does not touch the store.  Returns the built
entity, the possibly mutated live map, the next uuid seed and printed
output. -/
def instantiate_from_dict (classes : List String) (now : Nat)
    (clsName : String) (dic : FieldMap) (objects : Store) (uid : Nat) :
    Except Unit (Entity × Store × Nat × List String) :=
  if clsName ∈ classes then
    match dic with
    | [] =>
        let r := initFresh clsName now uid objects
        .ok (r.1, r.2, uid + 1, [])
    | _ =>
        let r := initFromKwargs clsName dic
        .ok (r.1, objects, uid, r.2)
  else .error ()

/-- The dict-comprehension loop of `FileStorage.reload` (lines 124-138).
`newMap` is the comprehension being built, `objects` the live `__objects`
map (mutated only by fresh registrations).  On success the comprehension
replaces `__objects` entirely; a `KeyError` mid-comprehension leaves
`__objects` at its current (possibly mutated) value, carried in the error.
-/
def reloadCore (classes : List String) (now : Nat) :
    StoreFile → Store → Store → Nat → List String →
    Except (Store × List String) (Store × Nat × List String)
  | [], newMap, _objects, uid, out => .ok (newMap, uid, out)
  | (key, dic) :: rest, newMap, objects, uid, out =>
      match instantiate_from_dict classes now (clsOf key) dic objects uid with
      | .ok (e, objects', uid', msgs) =>
          reloadCore classes now rest (alistSet newMap key e) objects' uid'
            (out ++ msgs)
      | .error _ => .error (objects, out)

/-- `FileStorage.reload` (lines 124-138): nothing happens when the backing
file is absent; otherwise each entry of the parsed JSON object is
reconstructed from the class resolved from its key's text before the first
`'.'`, and the whole map replaces `__objects`.  The result carries the
final `__objects` (in `.error`, the map left behind by the `KeyError`). -/
def FileStorage.reload (classes : List String) (now : Nat)
    (file : Option StoreFile) (objects : Store) (uid : Nat) :
    Except (Store × List String) (Store × Nat × List String) :=
  match file with
  | none => .ok (objects, uid, [])
  | some entries => reloadCore classes now entries [] objects uid []

/-- One state of a `shlex.split` scan: the characters still to read, the
quote we are inside (if any), the token being built (if one has started),
and the finished tokens in reverse. -/
def shlexGo : List Char → Option Char → Option (List Char) →
    List (List Char) → Option (List (List Char))
  | [], some _, _, _ => none
  | [], none, none, acc => some acc.reverse
  | [], none, some t, acc => some (t :: acc).reverse
  | c :: rest, some q, cur, acc =>
      if c = q then shlexGo rest none (some (cur.getD [])) acc
      else shlexGo rest (some q) (some (cur.getD [] ++ [c])) acc
  | c :: rest, none, cur, acc =>
      if c = ' ' then
        match cur with
        | none => shlexGo rest none none acc
        | some t => shlexGo rest none none (t :: acc)
      else if c = '"' ∨ c = '\'' then
        shlexGo rest (some c) (some (cur.getD [])) acc
      else shlexGo rest none (some (cur.getD [] ++ [c])) acc

/-- `shlex.split`: whitespace tokenization honouring single and double
quotes; an unbalanced quote raises `ValueError` (`none`).  (Backslash
escapes, unused by the console's inputs, are not modelled.) -/
def shlexSplit (s : String) : Option (List String) :=
  (shlexGo s.data none none []).map (fun ts => ts.map String.mk)

/-- The observable state a console command acts on: the store singleton's
`__objects`, the backing file (as parsed content; `none` = absent), the
lines printed so far, and the clock / uuid supplies (each `datetime.now()`
or `uuid4()` call consumes the next value). -/
structure World where
  objects : Store
  file : Option StoreFile
  out : List String
  now : Nat
  seed : Nat
deriving DecidableEq, Repr

/-- `HBNBCommand.has_valid_class` (src/console.py lines 158-174). -/
def has_valid_class (args : List String) : Bool × List String :=
  match args with
  | [] => (false, ["** class name missing **"])
  | c :: _ =>
      if c ∈ supported_classes then (true, [])
      else (false, ["** class doesn't exist **"])

/-- `HBNBCommand.has_id` (lines 176-190). -/
def has_id (args : List String) : Bool × List String :=
  if args.length < 2 then (false, ["** instance id missing **"]) else (true, [])

/-- `HBNBCommand.get_entity_storing_key` (lines 192-201). -/
def get_entity_storing_key (cls eid : String) : String := cls ++ "." ++ eid

/-- `HBNBCommand.is_stored` (lines 203-222). -/
def is_stored (objects : Store) (key : String) : Bool × List String :=
  if (objects.lookup key).isSome then (true, [])
  else (false, ["** no instance found **"])

/-- `HBNBCommand.operate_on_entity_if_valid` (lines 224-241): tokenize,
validate class then id then existence, and only then run the operation.
`none` models an uncaught exception (unbalanced quoting). -/
def operate_on_entity_if_valid (cmdLine : String)
    (op : String → World → Option World) (w : World) : Option World :=
  match shlexSplit cmdLine with
  | none => none
  | some args =>
      if (has_valid_class args).1 then
        if (has_id args).1 then
          match args with
          | c :: i :: _ =>
              let key := get_entity_storing_key c i
              if (is_stored w.objects key).1 then op key w
              else some { w with out := w.out ++ (is_stored w.objects key).2 }
          | _ => none
        else some { w with out := w.out ++ (has_id args).2 }
      else some { w with out := w.out ++ (has_valid_class args).2 }

/-- `HBNBCommand.do_show` (lines 47-55). -/
def do_show (s : String) (w : World) : Option World :=
  operate_on_entity_if_valid s
    (fun key w' =>
      match w'.objects.lookup key with
      | some e => some { w' with out := w'.out ++ [entityStr e] }
      | none => none)
    w

/-- `HBNBCommand.do_destroy` (lines 57-76): pop the key and save. -/
def do_destroy (s : String) (w : World) : Option World :=
  operate_on_entity_if_valid s
    (fun key w' =>
      let objects' := alistPop w'.objects key
      match FileStorage.save objects' with
      | some f => some { w' with objects := objects', file := some f }
      | none => none)
    w

/-- `HBNBCommand.do_update` (lines 88-117): after the shared validation
chain, require an attribute name and a value; the value is applied as
`str(args[3])` through `__setitem__` on the aliased stored object, then the
store is saved. -/
def do_update (s : String) (w : World) : Option World :=
  operate_on_entity_if_valid s
    (fun key w' =>
      match shlexSplit s with
      | none => none
      | some args =>
          if args.length < 3 then
            some { w' with out := w'.out ++ ["** attribute name missing **"] }
          else if args.length < 4 then
            some { w' with out := w'.out ++ ["** value missing **"] }
          else
            match args with
            | _ :: _ :: attr :: value :: _ =>
                match w'.objects.lookup key with
                | some obj =>
                    let r := obj.setItem attr (vStr value)
                    let objects' := alistSet w'.objects key r.1
                    match FileStorage.save objects' with
                    | some f =>
                        some { w' with objects := objects', file := some f,
                                       out := w'.out ++ r.2 }
                    | none => none
                | none => none
            | _ => none)
    w

/-- `k.startswith(pfx)` on the model's strings. -/
def strStarts (k pfx : String) : Bool :=
  go pfx.data k.data
where
  go : List Char → List Char → Bool
  | [], _ => true
  | _ :: _, [] => false
  | p :: ps, c :: cs => p = c && go ps cs

/-- `HBNBCommand._get_all` (lines 334-358) on already tokenized arguments:
all objects for an empty line, the key-filtered map for a supported class,
`none` with a diagnostic otherwise. -/
def get_all_args (args : List String) (objects : Store) :
    Option Store × List String :=
  match args with
  | [] => (some objects, [])
  | c :: _ =>
      if (has_valid_class args).1 then
        (some (objects.filter (fun p => strStarts p.1 c)), [])
      else (none, (has_valid_class args).2)

/-- `HBNBCommand.do_all` (lines 78-85): `if dic := self._get_all(s):` is a
truthiness test, so both `None` and an empty dict print nothing; a
non-empty dict prints the Python list of display strings, whose elements
render through `repr` (`strRepr`). -/
def do_all (s : String) (w : World) : Option World :=
  match shlexSplit s with
  | none => none
  | some args =>
      match get_all_args args w.objects with
      | (some dic, msgs) =>
          match dic with
          | [] => some { w with out := w.out ++ msgs }
          | _ =>
              some { w with out := w.out ++ msgs ++
                [ "[" ++ String.intercalate ", "
                    (dic.map (fun p => strRepr (entityStr p.2))) ++
                  "]" ] }
      | (none, msgs) => some { w with out := w.out ++ msgs }

/-- `HBNBCommand._do_count` (lines 360-373): `if dic:` again, so an empty
resolved map prints nothing rather than `0`. -/
def do_count (s : String) (w : World) : Option World :=
  match shlexSplit s with
  | none => none
  | some args =>
      match get_all_args args w.objects with
      | (some dic, msgs) =>
          match dic with
          | [] => some { w with out := w.out ++ msgs }
          | _ => some { w with out := w.out ++ msgs ++ [toString dic.length] }
      | (none, msgs) => some { w with out := w.out ++ msgs }

theorem alistSet_append_of_not_mem {α : Type} (l : List (String × α))
    (k : String) (v : α) (h : k ∉ l.map Prod.fst) :
    alistSet l k v = l ++ [(k, v)] := by
  induction l with
  | nil => rfl
  | cons p rest ih =>
      simp only [List.map_cons, List.mem_cons] at h
      push_neg at h
      simp [alistSet, Ne.symm h.1, ih h.2]

theorem alistSet_keys_of_mem {α : Type} (l : List (String × α)) (k : String)
    (v : α) (h : k ∈ l.map Prod.fst) :
    (alistSet l k v).map Prod.fst = l.map Prod.fst := by
  induction l with
  | nil => simp at h
  | cons p rest ih =>
      by_cases hp : p.1 = k
      · simp [alistSet, hp]
      · simp only [List.map_cons, List.mem_cons] at h
        rcases h with h | h
        · exact absurd h.symm hp
        · simp [alistSet, hp, ih h]

theorem lookup_alistSet_self {α : Type} (l : List (String × α)) (k : String)
    (v : α) : (alistSet l k v).lookup k = some v := by
  induction l with
  | nil => simp [alistSet, List.lookup]
  | cons p rest ih =>
      obtain ⟨pk, pv⟩ := p
      by_cases hp : pk = k
      · simp [alistSet, hp, List.lookup]
      · have hk : (k == pk) = false := by
          simp [beq_eq_false_iff_ne]
          exact Ne.symm hp
        simp [alistSet, hp, List.lookup, hk, ih]

theorem lookup_alistSet_ne {α : Type} (l : List (String × α)) (k k' : String)
    (v : α) (h : k' ≠ k) :
    (alistSet l k v).lookup k' = l.lookup k' := by
  have hkk : (k' == k) = false := by
    simp [beq_eq_false_iff_ne]
    exact h
  induction l with
  | nil => simp [alistSet, List.lookup, hkk]
  | cons p rest ih =>
      obtain ⟨pk, pv⟩ := p
      by_cases hp : pk = k
      · subst hp
        simp [alistSet, List.lookup, hkk]
      · by_cases hk' : k' = pk
        · simp [alistSet, hp, List.lookup, hk']
        · have h2 : (k' == pk) = false := by
            simp [beq_eq_false_iff_ne]
            exact hk'
          simp [alistSet, hp, List.lookup, h2, ih]

/-! ### C8: fresh construction -/

/-- C8: constructing an entity with no field map generates an id that is a
string (`vStr` of the drawn uuid), sets `created_at` and `updated_at` to
the same creation instant, and registers the entity in the store under the
key `<Kind>.<id>`, all within the constructor. -/
theorem C8_fresh_construction (cls : String) (now uid : Nat)
    (objects : Store) :
    (initFresh cls now uid objects).1.fields =
      [("id", PyVal.vStr (uuidStr uid)), ("created_at", PyVal.vDT now),
       ("updated_at", PyVal.vDT now)] ∧
    (initFresh cls now uid objects).2 =
      alistSet objects (cls ++ "." ++ uuidStr uid)
        (initFresh cls now uid objects).1 :=
  ⟨rfl, rfl⟩

/-! ### C3: kwargs reconstruction does no timestamp defaulting -/

/-- C3: the claim (and the constructor's own docstring and test suite) says
that on reconstruction from a non-empty field map `created_at` defaults to
"now" when absent and `updated_at` defaults to `created_at` when absent.
The code's kwargs loop copies exactly the supplied keys and nothing else:
with `created_at` absent the attribute is simply never set (the loop does
not even consult a clock), and an absent `updated_at` stays absent rather
than mirroring `created_at`. -/
theorem C3_kwargs_no_default :
    ((initFromKwargs "BaseModel"
        [("id", PyVal.vStr "123"),
         ("updated_at", PyVal.vStr (isoOf 5))]).1.fields.lookup
      "created_at" = none) ∧
    ((initFromKwargs "BaseModel"
        [("id", PyVal.vStr "123"),
         ("updated_at", PyVal.vStr (isoOf 5))]).1.fields.lookup
      "updated_at" = some (PyVal.vDT 5)) ∧
    ((initFromKwargs "BaseModel"
        [("id", PyVal.vStr "123")]).1.fields.lookup "created_at" = none) ∧
    ((initFromKwargs "BaseModel"
        [("id", PyVal.vStr "123")]).1.fields.lookup "updated_at" = none) := by
  decide

/-! ### C4: timestamp assignment validation -/

/-- C4: assigning `v` to `created_at` or `updated_at` succeeds exactly when
`v` is a native timestamp or a string parseable by `fromisoformat` (the
parsed instant is stored); for any other value the whole entity is left
unchanged and exactly the fixed diagnostic is printed. -/
theorem C4_timestamp_assignment (e : Entity) (key : String) (v : PyVal)
    (hkey : key = "created_at" ∨ key = "updated_at") :
    (((∃ d, v = PyVal.vDT d) ∨
        ∃ s, v = PyVal.vStr s ∧ (fromisoformat s).isSome) ↔
      (handle_timestamp_update v).isSome) ∧
    (∀ d, handle_timestamp_update v = some d →
      e.setAttr key v =
        ({ e with fields := alistSet e.fields key (PyVal.vDT d) }, [])) ∧
    (handle_timestamp_update v = none → e.setAttr key v = (e, [tsDiag])) := by
  refine ⟨?_, ?_, ?_⟩
  · cases v with
    | vStr s => simp [handle_timestamp_update, pyStr]
    | vDT n => simp [handle_timestamp_update]
    | vNone =>
        simp only [handle_timestamp_update, pyStr]
        constructor
        · rintro (⟨d, h⟩ | ⟨s, h, _⟩) <;> exact absurd h (by simp)
        · intro h
          exact absurd h (by decide)
  · intro d hd
    unfold Entity.setAttr
    rw [if_pos hkey]
    unfold Entity.set_timestamp
    rw [hd]
  · intro hd
    unfold Entity.setAttr
    rw [if_pos hkey]
    unfold Entity.set_timestamp
    rw [hd]

theorem C4_timestamp_assignment_witness :
    Entity.setAttr ⟨"BaseModel", [("created_at", PyVal.vDT 3)]⟩ "created_at"
        (PyVal.vStr "nope") =
      (⟨"BaseModel", [("created_at", PyVal.vDT 3)]⟩, [tsDiag]) :=
  (C4_timestamp_assignment ⟨"BaseModel", [("created_at", PyVal.vDT 3)]⟩
    "created_at" (PyVal.vStr "nope") (Or.inl rfl)).2.2 (by decide)

theorem lookup_some_mem_keys {α : Type} (l : List (String × α)) (k : String)
    (v : α) (h : l.lookup k = some v) : k ∈ l.map Prod.fst := by
  induction l with
  | nil => simp [List.lookup] at h
  | cons p rest ih =>
      obtain ⟨pk, pv⟩ := p
      by_cases hk : k = pk
      · simp [hk]
      · have h2 : (k == pk) = false := by
          simp [beq_eq_false_iff_ne]
          exact hk
        simp [List.lookup, h2] at h
        simp [ih h]

/-! ### C5: the shared validation chain of show / destroy / update -/

/-- Statement-side rendering of the claim's diagnostic decision tree: which
of the four fixed diagnostics a `show`/`destroy`/`update` argument list
must produce, `none` when the chain passes. -/
def specValidationDiag (args : List String) (objects : Store) :
    Option String :=
  match args with
  | [] => some "** class name missing **"
  | c :: rest =>
      if c ∈ supported_classes then
        match rest with
        | [] => some "** instance id missing **"
        | i :: _ =>
            if (objects.lookup (c ++ "." ++ i)).isSome then none
            else some "** no instance found **"
      else some "** class doesn't exist **"

theorem operate_fail (op : String → World → Option World) (w : World)
    (line : String) (args : List String) (h : shlexSplit line = some args)
    (d : String) (hd : specValidationDiag args w.objects = some d) :
    operate_on_entity_if_valid line op w =
      some { w with out := w.out ++ [d] } := by
  unfold operate_on_entity_if_valid
  rw [h]
  match args with
  | [] =>
      simp [specValidationDiag] at hd
      simp [has_valid_class, ← hd]
  | c :: rest =>
      by_cases hc : c ∈ supported_classes
      · match rest with
        | [] =>
            simp [specValidationDiag, hc] at hd
            simp [has_valid_class, hc, has_id, ← hd]
        | i :: rest' =>
            by_cases hs : ((w.objects.lookup (c ++ "." ++ i)).isSome : Prop)
            · simp [specValidationDiag, hc, hs] at hd
            · simp [specValidationDiag, hc, hs] at hd
              have hlen : ¬(rest'.length + 1 + 1 < 2) := by omega
              simp [has_valid_class, hc, has_id, hlen,
                    get_entity_storing_key, is_stored, hs, ← hd]
      · simp [specValidationDiag, hc] at hd
        simp [has_valid_class, hc, ← hd]

/-- C5: for every `show`, `destroy` or `update` line, a missing kind token,
an unsupported kind, a missing id token, or an unknown composite key
produces exactly the corresponding fixed diagnostic (as given by
`specValidationDiag`), and the command stops with the store and the backing
file untouched (only the printed output changes). -/
theorem C5_validation_chain (w : World) (line : String) (args : List String)
    (h : shlexSplit line = some args) (d : String)
    (hd : specValidationDiag args w.objects = some d) :
    do_show line w = some { w with out := w.out ++ [d] } ∧
    do_destroy line w = some { w with out := w.out ++ [d] } ∧
    do_update line w = some { w with out := w.out ++ [d] } :=
  ⟨operate_fail _ w line args h d hd, operate_fail _ w line args h d hd,
   operate_fail _ w line args h d hd⟩

theorem C5_validation_chain_witness :
    do_show "User 42"
        ⟨[], none, [], 0, 0⟩ =
      some ⟨[], none, ["** no instance found **"], 0, 0⟩ ∧
    do_destroy "User 42" ⟨[], none, [], 0, 0⟩ =
      some ⟨[], none, ["** no instance found **"], 0, 0⟩ ∧
    do_update "User 42" ⟨[], none, [], 0, 0⟩ =
      some ⟨[], none, ["** no instance found **"], 0, 0⟩ :=
  C5_validation_chain ⟨[], none, [], 0, 0⟩ "User 42" ["User", "42"]
    (by decide) "** no instance found **" (by decide)

/-! ### C10: empty `all` / `count` print nothing -/

/-- C10: when the resolved set of matching entities is empty — the whole
store for a bare `all`/`count`, or the key-filtered store for a supported
kind — neither `do_all` nor `_do_count` prints anything at all: no empty
list, no `0`; the world is returned unchanged. -/
theorem C10_empty_all_count_silent (w : World) (s : String)
    (args : List String) (h : shlexSplit s = some args)
    (hres : (args = [] ∧ w.objects = []) ∨
      ∃ c rest, args = c :: rest ∧ c ∈ supported_classes ∧
        w.objects.filter (fun p => strStarts p.1 c) = []) :
    do_all s w = some w ∧ do_count s w = some w := by
  unfold do_all do_count
  rw [h]
  rcases hres with ⟨ha, ho⟩ | ⟨c, rest, ha, hc, hf⟩
  · subst ha
    obtain ⟨o, fl, outl, n, sd⟩ := w
    simp only at ho
    subst ho
    simp [get_all_args]
  · subst ha
    simp [get_all_args, has_valid_class, hc, hf]

theorem C10_empty_all_count_silent_witness :
    do_all "User"
        ⟨[("BaseModel.1", ⟨"BaseModel", [("id", PyVal.vStr "1")]⟩)],
         none, [], 0, 0⟩ =
      some ⟨[("BaseModel.1", ⟨"BaseModel", [("id", PyVal.vStr "1")]⟩)],
         none, [], 0, 0⟩ ∧
    do_count "User"
        ⟨[("BaseModel.1", ⟨"BaseModel", [("id", PyVal.vStr "1")]⟩)],
         none, [], 0, 0⟩ =
      some ⟨[("BaseModel.1", ⟨"BaseModel", [("id", PyVal.vStr "1")]⟩)],
         none, [], 0, 0⟩ :=
  C10_empty_all_count_silent _ "User" ["User"] (by decide)
    (Or.inr ⟨"User", [], rfl, by decide, by decide⟩)

/-! ### C9: updating the `id` field breaks the key invariant -/

/-- C9: a validated `update <Kind> <old-id> id <new-id>` rewrites the
entity's `id` field to the new string, yet the entity stays stored under
the old composite key: the stored key set is unchanged, and the old key
still resolves to the (re-identified) entity — the derived-key invariant is
not preserved. -/
theorem C9_id_update_breaks_key (w : World)
    (line kind oldId newId : String) (e : Entity) (f : StoreFile)
    (hsplit : shlexSplit line = some [kind, oldId, "id", newId])
    (hkind : kind ∈ supported_classes)
    (hlook : w.objects.lookup (kind ++ "." ++ oldId) = some e)
    (hsave : FileStorage.save (alistSet w.objects (kind ++ "." ++ oldId)
        { e with fields := alistSet e.fields "id" (PyVal.vStr newId) }) =
      some f) :
    do_update line w = some { w with
        objects := alistSet w.objects (kind ++ "." ++ oldId)
          { e with fields := alistSet e.fields "id" (PyVal.vStr newId) },
        file := some f } ∧
    ({ e with fields := alistSet e.fields "id" (PyVal.vStr newId)
        : Entity }).fields.lookup "id" = some (PyVal.vStr newId) ∧
    (alistSet w.objects (kind ++ "." ++ oldId)
        { e with fields := alistSet e.fields "id" (PyVal.vStr newId)
        }).map Prod.fst = w.objects.map Prod.fst := by
  refine ⟨?_, lookup_alistSet_self _ _ _,
    alistSet_keys_of_mem _ _ _ (lookup_some_mem_keys _ _ _ hlook)⟩
  unfold do_update operate_on_entity_if_valid
  rw [hsplit]
  simp [has_valid_class, hkind, has_id, get_entity_storing_key, is_stored,
        hlook, hsplit, Entity.setItem, Entity.setAttr, pyStr, hsave]

theorem C9_id_update_breaks_key_witness :
    do_update "BaseModel 1 id 9"
        ⟨[("BaseModel.1", ⟨"BaseModel", [("id", PyVal.vStr "1")]⟩)],
         none, [], 0, 0⟩ =
      some ⟨[("BaseModel.1", ⟨"BaseModel", [("id", PyVal.vStr "9")]⟩)],
         some [("BaseModel.1",
           [("id", PyVal.vStr "9"), ("__class__", PyVal.vStr "BaseModel")])],
         [], 0, 0⟩ :=
  (C9_id_update_breaks_key _ "BaseModel 1 id 9" "BaseModel" "1" "9"
    ⟨"BaseModel", [("id", PyVal.vStr "1")]⟩
    [("BaseModel.1",
      [("id", PyVal.vStr "9"), ("__class__", PyVal.vStr "BaseModel")])]
    (by decide) (by decide) (by decide) (by decide)).1

/-! ### C6: the update value path -/

/-- C6 counterexample: the claim says a validated
`update <kind> <id> <field> <value>` sets the named field with the value as
text *for every field name*.  For the field name `__class__` the setter
silently ignores the assignment: after
`update BaseModel 1 __class__ Foo` the stored entity is unchanged (no
`__class__` entry appears in its fields), while the store is still
persisted. -/
theorem C6_counterexample :
    do_update "BaseModel 1 __class__ Foo"
        ⟨[("BaseModel.1", ⟨"BaseModel", [("id", PyVal.vStr "1")]⟩)],
         none, [], 0, 0⟩ =
      some ⟨[("BaseModel.1", ⟨"BaseModel", [("id", PyVal.vStr "1")]⟩)],
        some [("BaseModel.1",
          [("id", PyVal.vStr "1"), ("__class__", PyVal.vStr "BaseModel")])],
        [], 0, 0⟩ ∧
    (⟨"BaseModel", [("id", PyVal.vStr "1")]⟩ : Entity).fields.lookup
        "__class__" = none := by
  decide

/-- C6 amended: after the validation chain, a missing field name prints
`"** attribute name missing **"` and a missing value prints
`"** value missing **"`; otherwise the textual value is applied through the
entity's generic field-setting path (`__setitem__`) — which stores it
verbatim as text for ordinary names, but silently ignores `__class__` and
subjects `created_at`/`updated_at` to timestamp validation — and the store
is persisted. -/
theorem C6_update_amended (w : World) (line kind eid : String)
    (rest : List String) (e : Entity)
    (hsplit : shlexSplit line = some (kind :: eid :: rest))
    (hkind : kind ∈ supported_classes)
    (hlook : w.objects.lookup (kind ++ "." ++ eid) = some e) :
    (rest = [] → do_update line w =
      some { w with out := w.out ++ ["** attribute name missing **"] }) ∧
    (∀ attr, rest = [attr] → do_update line w =
      some { w with out := w.out ++ ["** value missing **"] }) ∧
    (∀ attr value more f, rest = attr :: value :: more →
      FileStorage.save (alistSet w.objects (kind ++ "." ++ eid)
          (e.setItem attr (PyVal.vStr value)).1) = some f →
      do_update line w = some { w with
        objects := alistSet w.objects (kind ++ "." ++ eid)
          (e.setItem attr (PyVal.vStr value)).1,
        file := some f,
        out := w.out ++ (e.setItem attr (PyVal.vStr value)).2 }) := by
  refine ⟨?_, ?_, ?_⟩
  · intro hrest
    subst hrest
    unfold do_update operate_on_entity_if_valid
    rw [hsplit]
    simp [has_valid_class, hkind, has_id, get_entity_storing_key, is_stored,
          hlook, hsplit]
  · intro attr hrest
    subst hrest
    unfold do_update operate_on_entity_if_valid
    rw [hsplit]
    simp [has_valid_class, hkind, has_id, get_entity_storing_key, is_stored,
          hlook, hsplit]
  · intro attr value more f hrest hsave
    subst hrest
    unfold do_update operate_on_entity_if_valid
    rw [hsplit]
    have hlen2 : ¬(more.length + 1 + 1 + 1 + 1 < 2) := by omega
    have hlen3 : ¬(more.length + 1 + 1 + 1 + 1 < 3) := by omega
    have hlen4 : ¬(more.length + 1 + 1 + 1 + 1 < 4) := by omega
    simp [has_valid_class, hkind, has_id, get_entity_storing_key, is_stored,
          hlook, hsplit, hlen2, hlen3, hlen4, hsave]

theorem C6_update_amended_witness :
    do_update "BaseModel 1 created_at junk"
        ⟨[("BaseModel.1", ⟨"BaseModel", [("id", PyVal.vStr "1")]⟩)],
         none, [], 0, 0⟩ =
      some ⟨[("BaseModel.1", ⟨"BaseModel", [("id", PyVal.vStr "1")]⟩)],
        some [("BaseModel.1",
          [("id", PyVal.vStr "1"), ("__class__", PyVal.vStr "BaseModel")])],
        [tsDiag], 0, 0⟩ :=
  (C6_update_amended
    ⟨[("BaseModel.1", ⟨"BaseModel", [("id", PyVal.vStr "1")]⟩)],
     none, [], 0, 0⟩
    "BaseModel 1 created_at junk" "BaseModel" "1" ["created_at", "junk"]
    ⟨"BaseModel", [("id", PyVal.vStr "1")]⟩
    (by decide) (by decide) (by decide)).2.2 "created_at" "junk" []
    [("BaseModel.1",
      [("id", PyVal.vStr "1"), ("__class__", PyVal.vStr "BaseModel")])]
    rfl (by decide)

/-! ### C2: `to_dict` round trip -/

/-- Well-formedness of one `__dict__` entry, an invariant every entity
reachable through the program's setters maintains: timestamp keys hold
`datetime`s, `id` holds a string, and `__class__` never appears. -/
def wfPair (p : String × PyVal) : Bool :=
  (if p.1 = "created_at" ∨ p.1 = "updated_at" then
      (match p.2 with | PyVal.vDT _ => true | _ => false)
    else true) &&
  (if p.1 = "id" then
      (match p.2 with | PyVal.vStr _ => true | _ => false)
    else true) &&
  (p.1 != "__class__")

/-- The successful rendering of one `__dict__` entry by the `to_dict`
comprehension. -/
def isoEntry (p : String × PyVal) : String × PyVal :=
  if p.1 = "created_at" ∨ p.1 = "updated_at" then
    (p.1, match p.2 with | PyVal.vDT d => PyVal.vStr (isoOf d) | v => v)
  else p

theorem iso_round (n : Nat) : fromisoformat (isoOf n) = some n := by
  have hd : (isoOf n).data = 'I' :: 'S' :: 'O' :: ':' :: List.replicate n 'x' := by
    unfold isoOf
    rw [String.data_append]
    rfl
  have hall : (List.replicate n 'x').all (· = 'x') = true := by
    simp [List.all_eq_true, List.mem_replicate]
  unfold fromisoformat
  rw [hd]
  simp [hall]

theorem wfPair_ts (k : String) (v : PyVal) (h : wfPair (k, v) = true)
    (hk : k = "created_at" ∨ k = "updated_at") : ∃ d, v = PyVal.vDT d := by
  unfold wfPair at h
  rw [if_pos hk] at h
  cases v with
  | vDT d => exact ⟨d, rfl⟩
  | vStr s => simp at h
  | vNone => simp at h

theorem wfPair_id (k : String) (v : PyVal) (h : wfPair (k, v) = true)
    (hk : k = "id") : ∃ s, v = PyVal.vStr s := by
  unfold wfPair at h
  rw [if_pos hk] at h
  cases v with
  | vStr s => exact ⟨s, rfl⟩
  | vDT d =>
      subst hk
      simp at h
  | vNone =>
      subst hk
      simp at h

theorem wfPair_ne_class (k : String) (v : PyVal) (h : wfPair (k, v) = true) :
    k ≠ "__class__" := by
  unfold wfPair at h
  simp only [Bool.and_eq_true, bne_iff_ne] at h
  exact h.2

theorem wf_no_class (l : FieldMap) (h : l.all wfPair = true) :
    "__class__" ∉ l.map Prod.fst := by
  intro hmem
  rw [List.all_eq_true] at h
  obtain ⟨p, hp, hfst⟩ := List.mem_map.mp hmem
  exact wfPair_ne_class p.1 p.2 (by simpa using h p hp) hfst

theorem toDictEntry_wf (p : String × PyVal) (h : wfPair p = true) :
    toDictEntry p = some (isoEntry p) := by
  obtain ⟨k, v⟩ := p
  unfold toDictEntry isoEntry
  by_cases hk : k = "created_at" ∨ k = "updated_at"
  · obtain ⟨d, hd⟩ := wfPair_ts k v h hk
    subst hd
    rw [if_pos hk, if_pos hk]
  · rw [if_neg hk, if_neg hk]

theorem mapM_toDictEntry (l : FieldMap) (h : l.all wfPair = true) :
    l.mapM toDictEntry = some (l.map isoEntry) := by
  induction l with
  | nil => rfl
  | cons p rest ih =>
      rw [List.all_cons, Bool.and_eq_true] at h
      rw [List.mapM_cons, toDictEntry_wf p h.1, ih h.2]
      rfl

theorem isoEntry_fst (p : String × PyVal) : (isoEntry p).1 = p.1 := by
  unfold isoEntry
  by_cases hk : p.1 = "created_at" ∨ p.1 = "updated_at"
  · rw [if_pos hk]
  · rw [if_neg hk]

theorem isoEntry_keys (l : FieldMap) :
    (l.map isoEntry).map Prod.fst = l.map Prod.fst := by
  rw [List.map_map]
  exact List.map_congr_left (fun p _ => isoEntry_fst p)

theorem to_dict_wf (e : Entity) (h : e.fields.all wfPair = true) :
    e.to_dict = some (e.fields.map isoEntry ++
      [("__class__", PyVal.vStr e.cls)]) := by
  unfold Entity.to_dict
  rw [mapM_toDictEntry _ h]
  have hnot : "__class__" ∉ (e.fields.map isoEntry).map Prod.fst := by
    rw [isoEntry_keys]
    exact wf_no_class _ h
  simp only [Option.map]
  rw [alistSet_append_of_not_mem _ _ _ hnot]

theorem initStep_wf (cls : String) (accF : FieldMap) (out : List String)
    (k : String) (v : PyVal) (hwf : wfPair (k, v) = true)
    (hnotin : k ∉ accF.map Prod.fst) :
    initStep (⟨cls, accF⟩, out) (isoEntry (k, v)) =
      (⟨cls, accF ++ [(k, v)]⟩, out) := by
  have hset : alistSet accF k v = accF ++ [(k, v)] :=
    alistSet_append_of_not_mem _ _ _ hnotin
  have hkc : ¬(k = "__class__") := wfPair_ne_class k v hwf
  by_cases hts : k = "created_at" ∨ k = "updated_at"
  · obtain ⟨d, hd⟩ := wfPair_ts k v hwf hts
    subst hd
    unfold initStep Entity.setItem
    rw [isoEntry, if_pos hts]
    simp only [if_neg hkc, if_pos hts]
    unfold Entity.set_timestamp
    have : handle_timestamp_update (PyVal.vStr (isoOf d)) = some d := by
      unfold handle_timestamp_update pyStr
      exact iso_round d
    rw [this]
    simp [alistSet_append_of_not_mem _ _ _ hnotin]
  · by_cases hid : k = "id"
    · obtain ⟨s, hs⟩ := wfPair_id k v hwf hid
      subst hs
      unfold initStep Entity.setItem Entity.setAttr
      rw [isoEntry, if_neg hts]
      simp only [if_neg hkc, if_neg hts, if_pos hid]
      simp [pyStr, hset]
    · unfold initStep Entity.setItem Entity.setAttr
      rw [isoEntry, if_neg hts]
      simp only [if_neg hkc, if_neg hts, if_neg hid]
      simp [hset]

theorem foldl_initStep_wf (cls : String) (l : FieldMap) :
    ∀ (accF : FieldMap) (out : List String),
    l.all wfPair = true → (l.map Prod.fst).Nodup →
    (∀ k ∈ l.map Prod.fst, k ∉ accF.map Prod.fst) →
    List.foldl initStep (⟨cls, accF⟩, out) (l.map isoEntry) =
      (⟨cls, accF ++ l⟩, out) := by
  induction l with
  | nil =>
      intro accF out _ _ _
      simp
  | cons p rest ih =>
      intro accF out hall hnd hdis
      obtain ⟨k, v⟩ := p
      rw [List.all_cons, Bool.and_eq_true] at hall
      rw [List.map_cons, List.foldl_cons,
          initStep_wf cls accF out k v hall.1
            (hdis k (by simp))]
      rw [List.map_cons, List.nodup_cons] at hnd
      rw [ih (accF ++ [(k, v)]) out hall.2 hnd.2 ?_]
      · simp
      · intro k' hk'
        have hne : k' ≠ k := fun he => hnd.1 (he ▸ hk')
        have : k' ∉ accF.map Prod.fst := hdis k' (by simp [hk'])
        simp [this, hne]

/-- C2: for every well-formed entity (timestamp fields hold `datetime`s,
`id` holds a string, no `__class__` entry, no duplicate attribute names —
the invariant every reachable entity satisfies), rebuilding an entity of
the same kind from `to_dict()` output and serializing it again gives back
exactly the same field map. -/
theorem C2_roundtrip (e : Entity) (d : FieldMap)
    (hwf : e.fields.all wfPair = true)
    (hnd : (e.fields.map Prod.fst).Nodup)
    (hdict : e.to_dict = some d) :
    ((initFromKwargs e.cls d).1).to_dict = some d := by
  have hd : d = e.fields.map isoEntry ++ [("__class__", PyVal.vStr e.cls)] := by
    rw [to_dict_wf e hwf] at hdict
    exact (Option.some.inj hdict).symm
  subst hd
  unfold initFromKwargs
  rw [List.foldl_append]
  rw [foldl_initStep_wf e.cls e.fields [] [] hwf hnd (by simp)]
  have hclass : initStep (⟨e.cls, [] ++ e.fields⟩, [])
      ("__class__", PyVal.vStr e.cls) = (⟨e.cls, [] ++ e.fields⟩, []) := by
    unfold initStep Entity.setItem
    simp
  rw [List.foldl_cons, List.foldl_nil, hclass]
  simp only [List.nil_append]
  exact to_dict_wf e hwf

theorem C2_roundtrip_witness :
    ((initFromKwargs "BaseModel"
        [("id", PyVal.vStr "1"), ("created_at", PyVal.vStr (isoOf 2)),
         ("updated_at", PyVal.vStr (isoOf 3)),
         ("name", PyVal.vStr "home"),
         ("__class__", PyVal.vStr "BaseModel")]).1).to_dict =
      some [("id", PyVal.vStr "1"), ("created_at", PyVal.vStr (isoOf 2)),
         ("updated_at", PyVal.vStr (isoOf 3)),
         ("name", PyVal.vStr "home"),
         ("__class__", PyVal.vStr "BaseModel")] :=
  C2_roundtrip
    ⟨"BaseModel",
     [("id", PyVal.vStr "1"), ("created_at", PyVal.vDT 2),
      ("updated_at", PyVal.vDT 3), ("name", PyVal.vStr "home")]⟩
    [("id", PyVal.vStr "1"), ("created_at", PyVal.vStr (isoOf 2)),
     ("updated_at", PyVal.vStr (isoOf 3)), ("name", PyVal.vStr "home"),
     ("__class__", PyVal.vStr "BaseModel")]
    (by decide) (by decide) (by decide)

/-! ### C1: reload -/

/-- C1 counterexample: the claim says a reload that hits an unsupported
kind raises and leaves the in-memory map *entirely unchanged*.  But an
entry whose field map is empty takes the fresh-construction path of
`BaseModel.__init__`, which registers a brand-new entity in the live
`__objects` map as a side effect; when a later entry's kind is unknown the
`KeyError` aborts the comprehension and that spurious registration stays
behind.  Starting from an empty map, reloading
`{"BaseModel.2": {}, "Foo.1": {"id": "1"}}` errors out with the map now
holding one freshly minted entity. -/
theorem C1_counterexample :
    FileStorage.reload fsClasses 5
        (some [("BaseModel.2", []), ("Foo.1", [("id", PyVal.vStr "1")])])
        [] 0 =
      .error ([("BaseModel.uuid-0",
        ⟨"BaseModel",
         [("id", PyVal.vStr "uuid-0"), ("created_at", PyVal.vDT 5),
          ("updated_at", PyVal.vDT 5)]⟩)], []) ∧
    ([("BaseModel.uuid-0",
        ⟨"BaseModel",
         [("id", PyVal.vStr "uuid-0"), ("created_at", PyVal.vDT 5),
          ("updated_at", PyVal.vDT 5)]⟩)] : Store) ≠ [] :=
  ⟨rfl, by decide⟩

theorem reloadCore_ok (now : Nat) (l : StoreFile) :
    ∀ (newMap objects : Store) (uid : Nat) (out : List String),
    (∀ p ∈ l, p.2 ≠ []) →
    (∀ p ∈ l, clsOf p.1 ∈ fsClasses) →
    (l.map Prod.fst).Nodup →
    (∀ k ∈ l.map Prod.fst, k ∉ newMap.map Prod.fst) →
    ∃ msgs, reloadCore fsClasses now l newMap objects uid out =
      .ok (newMap ++
        l.map (fun p => (p.1, (initFromKwargs (clsOf p.1) p.2).1)),
        uid, msgs) := by
  induction l with
  | nil =>
      intro newMap objects uid out _ _ _ _
      exact ⟨out, by simp [reloadCore]⟩
  | cons p rest ih =>
      intro newMap objects uid out hne hcls hnd hdis
      obtain ⟨key, dic⟩ := p
      have hck : clsOf key ∈ fsClasses := hcls (key, dic) (by simp)
      have hdk : dic ≠ [] := hne (key, dic) (by simp)
      rw [List.map_cons, List.nodup_cons] at hnd
      have hstep : instantiate_from_dict fsClasses now (clsOf key) dic
          objects uid = .ok ((initFromKwargs (clsOf key) dic).1, objects,
            uid, (initFromKwargs (clsOf key) dic).2) := by
        unfold instantiate_from_dict
        rw [if_pos hck]
        match dic, hdk with
        | q :: ds, _ => rfl
      have hset : alistSet newMap key ((initFromKwargs (clsOf key) dic).1) =
          newMap ++ [(key, (initFromKwargs (clsOf key) dic).1)] :=
        alistSet_append_of_not_mem _ _ _ (hdis key (by simp))
      obtain ⟨msgs, hmsgs⟩ := ih
        (newMap ++ [(key, (initFromKwargs (clsOf key) dic).1)]) objects uid
        (out ++ (initFromKwargs (clsOf key) dic).2)
        (fun q hq => hne q (by simp [hq]))
        (fun q hq => hcls q (by simp [hq]))
        hnd.2
        (by
          intro k' hk'
          have hne' : k' ≠ key := fun he => hnd.1 (he ▸ hk')
          have : k' ∉ newMap.map Prod.fst := hdis k' (by simp [hk'])
          simp [this, hne'])
      refine ⟨msgs, ?_⟩
      unfold reloadCore
      rw [hstep]
      show reloadCore fsClasses now rest
          (alistSet newMap key (initFromKwargs (clsOf key) dic).1) objects
          uid (out ++ (initFromKwargs (clsOf key) dic).2) = _
      rw [hset, hmsgs]
      simp

theorem reloadCore_err (now : Nat) (l : StoreFile) :
    ∀ (newMap objects : Store) (uid : Nat) (out : List String),
    (∀ p ∈ l, p.2 ≠ []) →
    (∃ p ∈ l, clsOf p.1 ∉ fsClasses) →
    ∃ msgs, reloadCore fsClasses now l newMap objects uid out =
      .error (objects, msgs) := by
  induction l with
  | nil =>
      intro newMap objects uid out _ hex
      simp at hex
  | cons p rest ih =>
      intro newMap objects uid out hne hex
      obtain ⟨key, dic⟩ := p
      by_cases hck : clsOf key ∈ fsClasses
      · have hdk : dic ≠ [] := hne (key, dic) (by simp)
        have hstep : instantiate_from_dict fsClasses now (clsOf key) dic
            objects uid = .ok ((initFromKwargs (clsOf key) dic).1, objects,
              uid, (initFromKwargs (clsOf key) dic).2) := by
          unfold instantiate_from_dict
          rw [if_pos hck]
          match dic, hdk with
          | q :: ds, _ => rfl
        have hex' : ∃ q ∈ rest, clsOf q.1 ∉ fsClasses := by
          obtain ⟨q, hq, hqc⟩ := hex
          rcases List.mem_cons.mp hq with he | ht
          · subst he
            exact absurd hck (by simpa using hqc)
          · exact ⟨q, ht, hqc⟩
        obtain ⟨msgs, hmsgs⟩ := ih
          (alistSet newMap key (initFromKwargs (clsOf key) dic).1) objects
          uid (out ++ (initFromKwargs (clsOf key) dic).2)
          (fun q hq => hne q (by simp [hq])) hex'
        refine ⟨msgs, ?_⟩
        unfold reloadCore
        rw [hstep]
        exact hmsgs
      · refine ⟨out, ?_⟩
        unfold reloadCore
        unfold instantiate_from_dict
        rw [if_neg hck]

/-- C1 amended: over the storage engine's own class table (`__classes`,
which holds only `BaseModel`), and provided every entry of the backing file
carries a non-empty field map, `reload()` reconstructs each entry by
invoking the constructor of the kind resolved from the key text before the
first `'.'`; and when some entry's kind is not in the table the reload
raises and the in-memory map is left unchanged.  (The non-empty-map proviso
is forced by `C1_counterexample`: an empty field map fresh-constructs and
registers a new entity mid-reload.) -/
theorem C1_reload_amended (entries : StoreFile) (objects : Store)
    (now uid : Nat) (hne : ∀ p ∈ entries, p.2 ≠ []) :
    ((entries.map Prod.fst).Nodup →
      (∀ p ∈ entries, clsOf p.1 ∈ fsClasses) →
      ∃ msgs, FileStorage.reload fsClasses now (some entries) objects uid =
        .ok (entries.map
          (fun p => (p.1, (initFromKwargs (clsOf p.1) p.2).1)),
          uid, msgs)) ∧
    ((∃ p ∈ entries, clsOf p.1 ∉ fsClasses) →
      ∃ msgs, FileStorage.reload fsClasses now (some entries) objects uid =
        .error (objects, msgs)) := by
  constructor
  · intro hnd hcls
    obtain ⟨msgs, hmsgs⟩ :=
      reloadCore_ok now entries [] objects uid [] hne hcls hnd (by simp)
    refine ⟨msgs, ?_⟩
    show reloadCore fsClasses now entries [] objects uid [] = _
    rw [hmsgs]
    simp
  · intro hex
    obtain ⟨msgs, hmsgs⟩ :=
      reloadCore_err now entries [] objects uid [] hne hex
    refine ⟨msgs, ?_⟩
    show reloadCore fsClasses now entries [] objects uid [] = _
    exact hmsgs

theorem C1_reload_amended_witness :
    (∃ msgs, FileStorage.reload fsClasses 7
        (some [("BaseModel.1", [("id", PyVal.vStr "1")])]) [] 0 =
      .ok ([("BaseModel.1", [("id", PyVal.vStr "1")])].map
        (fun p => (p.1, (initFromKwargs (clsOf p.1) p.2).1)), 0, msgs)) ∧
    (∃ msgs, FileStorage.reload fsClasses 7
        (some [("User.1", [("id", PyVal.vStr "1")])]) [] 0 =
      .error ([], msgs)) :=
  ⟨(C1_reload_amended [("BaseModel.1", [("id", PyVal.vStr "1")])] [] 7 0
      (by decide)).1 (by decide) (by decide),
   (C1_reload_amended [("User.1", [("id", PyVal.vStr "1")])] [] 7 0
      (by decide)).2 ⟨("User.1", [("id", PyVal.vStr "1")]), by decide,
        by decide⟩⟩

/-! ### C7: the dotted bulk-update form -/

